import Mathlib

/-!
Shallow embedding of the orb-sound-system playback engine (Rust sources:
`src/handle.rs`, `src/system/mod.rs`, `src/system/sound.rs`) together with
proofs about the arbitration ordering, the pending-request arbiter, the
ring-buffered sound bridge and the command-drain of the event loop.

Modelling conventions:
- `Instant` (a monotonic clock value) is modelled as `Nat`;
- `i16` samples are modelled as `Int` (their values are only moved around,
  never subjected to machine arithmetic);
- `f32` volume is modelled as `ℚ` (the only operation performed on it is
  addition, whose rounding behaviour is irrelevant to the claims settled
  here);
- the `rtrb` SPSC ring buffer is modelled as a record holding its capacity,
  the queued samples and an `producerAlive` flag (`is_abandoned` is its
  negation); push appends at the back, pop takes the front;
- the filesystem plus WAV decoding is modelled as a function
  `String → Option WavFile`; `none` covers both `File::open` and
  `Decoder::new_wav` failure, each of which yields `SoundFileErr` in the
  source.
-/

/-- Priority enum from `src/handle.rs`. The derived Rust `Ord` compares
declaration order, so `Urgent < High < Default` ("plays-first" order).
The table below is that derived comparison. -/
inductive SoundPriority where
  | Urgent
  | High
  | Default
deriving DecidableEq

/-- Declaration index of a priority (the Rust enum discriminant). -/
def SoundPriority.rank : SoundPriority → Nat
  | .Urgent => 0
  | .High => 1
  | .Default => 2

/-- Derived `Ord::cmp` of the fieldless enum `SoundPriority`: comparison of
declaration order (discriminants). -/
def SoundPriority.cmp : SoundPriority → SoundPriority → Ordering
  | .Urgent, .Urgent => .eq
  | .Urgent, _ => .lt
  | _, .Urgent => .gt
  | .High, .High => .eq
  | .High, .Default => .lt
  | .Default, .High => .gt
  | .Default, .Default => .eq

/-- `PlaySoundCommand` from `src/handle.rs`: path, priority and optional
absolute play deadline (an `Instant`, modelled as `Nat`). -/
structure PlaySoundCommand where
  path : String
  priority : SoundPriority
  play_deadline : Option Nat
deriving DecidableEq

/-- Rust `Ord` for `Option<Instant>` (`None < Some`, `Some` compared by
value); the source only reaches the two-`Some` case. -/
def optDeadlineCmp : Option Nat → Option Nat → Ordering
  | some a, some b => compare a b
  | some _, none => .gt
  | none, some _ => .lt
  | none, none => .eq

/-- `impl Ord for PlaySoundCommand` (`src/handle.rs:111-123`): compare by
priority, then by the deadline rule computed in `by_deadline`. -/
def PlaySoundCommand.cmp (a b : PlaySoundCommand) : Ordering :=
  let by_priority := a.priority.cmp b.priority
  let by_deadline :=
    if a.play_deadline.isSome && b.play_deadline.isSome then
      optDeadlineCmp a.play_deadline b.play_deadline
    else if a.play_deadline.isSome then
      Ordering.lt
    else
      Ordering.gt
  by_priority.then by_deadline

/-- The §3 ordering relation exactly as the spec words it ("first by
priority; on ties, a request with a deadline precedes one without; on ties
where both have deadlines, the smaller deadline plays first; on ties where
neither has a deadline, the relation is equal"). Written from the spec for
comparison against `PlaySoundCommand.cmp`. -/
def specCmp (a b : PlaySoundCommand) : Ordering :=
  if a.priority.rank < b.priority.rank then .lt
  else if b.priority.rank < a.priority.rank then .gt
  else
    match a.play_deadline, b.play_deadline with
    | some da, some db => compare da db
    | some _, none => .lt
    | none, some _ => .gt
    | none, none => .eq

/-- The comparison as the source actually computes it: identical to the §3
relation except that two requests of equal priority, neither of which has a
deadline, compare as `gt` instead of `eq`. -/
def amendedCmp (a b : PlaySoundCommand) : Ordering :=
  match compare a.priority.rank b.priority.rank with
  | .eq =>
    match a.play_deadline, b.play_deadline with
    | some da, some db => compare da db
    | some _, none => .lt
    | none, some _ => .gt
    | none, none => .gt
  | o => o

/-- A request of `Default` priority with no deadline. -/
def defaultNone : PlaySoundCommand := ⟨"", SoundPriority.Default, none⟩

/-- A request of `Default` priority with deadline 2000 ms. -/
def default2s : PlaySoundCommand := ⟨"", SoundPriority.Default, some 2000⟩

/-- A request of `High` priority with no deadline. -/
def highNone : PlaySoundCommand := ⟨"", SoundPriority.High, none⟩

/-- A request of `High` priority with deadline 5000 ms. -/
def high5s : PlaySoundCommand := ⟨"", SoundPriority.High, some 5000⟩

/-- A request of `High` priority with deadline 3000 ms. -/
def high3s : PlaySoundCommand := ⟨"", SoundPriority.High, some 3000⟩

/-- A request of `Urgent` priority with no deadline. -/
def urgentNone : PlaySoundCommand := ⟨"", SoundPriority.Urgent, none⟩

/-- State of the `rtrb` SPSC ring buffer shared by the two halves of a
bridge: fixed capacity, queued samples (front = next to pop) and whether
the producer half is still alive (`is_abandoned` is its negation). -/
structure RingBufferState where
  capacity : Nat
  queue : List Int
  producerAlive : Bool
deriving DecidableEq

/-- Number of free slots (`Producer::slots`). -/
def RingBufferState.slots (rb : RingBufferState) : Nat :=
  rb.capacity - rb.queue.length

/-- `Producer::push`: append a sample at the back. The source only calls it
after checking slot availability, so the full-buffer error case is never
reached. -/
def RingBufferState.push (rb : RingBufferState) (x : Int) : RingBufferState :=
  { rb with queue := rb.queue ++ [x] }

/-- `Consumer::pop`: take the front sample, or fail on an empty queue. -/
def RingBufferState.pop (rb : RingBufferState) : Option Int × RingBufferState :=
  match rb.queue with
  | [] => (none, rb)
  | x :: rest => (some x, { rb with queue := rest })

/-- Dropping the producer half of a bridge (`is_abandoned` becomes true on
the consumer side). -/
def RingBufferState.dropProducer (rb : RingBufferState) : RingBufferState :=
  { rb with producerAlive := false }

/-- `SoundProducer` from `src/system/sound.rs`: the decoder iterator
(modelled as the list of samples it has yet to yield) plus the producer
half of the ring buffer. -/
structure SoundProducerState where
  reader : List Int
  buffer : RingBufferState
deriving DecidableEq

/-- Loop body of `SoundProducer::fill_buffer`: `n` remaining iterations of
`for _ in 0..slots_available`; each iteration asks the reader for a sample
and pushes it, or ends the call with `true` when the reader is exhausted. -/
def fillLoop : Nat → List Int → RingBufferState → List Int × RingBufferState × Bool
  | 0, reader, rb => (reader, rb, false)
  | _ + 1, [], rb => ([], rb, true)
  | n + 1, x :: rest, rb => fillLoop n rest (rb.push x)

/-- `SoundProducer::fill_buffer` (`src/system/sound.rs:67-78`): read the
free-slot count once, pull up to that many samples from the reader, return
true iff the reader ran dry during the call. -/
def SoundProducerState.fill_buffer (s : SoundProducerState) : SoundProducerState × Bool :=
  let slots_available := s.buffer.slots
  let (reader, rb, eos) := fillLoop slots_available s.reader s.buffer
  (⟨reader, rb⟩, eos)

/-- `impl Iterator for SoundConsumer` (`src/system/sound.rs:91-101`): pop if
possible; on an empty queue return `none` when the producer was dropped,
else the zero sample (silence). -/
def consumerNext (rb : RingBufferState) : Option Int × RingBufferState :=
  match rb.pop with
  | (some sample, rb') => (some sample, rb')
  | (none, rb') =>
    if rb'.producerAlive = false then (none, rb')
    else (some 0, rb')

/-- Repeated consumption: outputs of `n` successive `consumerNext` calls
together with the final buffer state. -/
def consumeN : Nat → RingBufferState → List (Option Int) × RingBufferState
  | 0, rb => ([], rb)
  | n + 1, rb =>
    let (o, rb') := consumerNext rb
    let (os, rb'') := consumeN n rb'
    (o :: os, rb'')

/-- `BUFFER_CAPACITY` from `src/system/sound.rs:11`: `44100 / 20 * 2`. -/
def BUFFER_CAPACITY : Nat := 44100 / 20 * 2

/-- The capacity the spec mandates: `ceil(sample_rate / 20) * channels`. -/
def claimedCapacity (sample_rate channels : Nat) : Nat :=
  (sample_rate + 19) / 20 * channels

/-- A WAV file as the decoder reports it: header data plus the decoded
16-bit PCM sample stream. -/
structure WavFile where
  channels : Nat
  sample_rate : Nat
  samples : List Int
deriving DecidableEq

/-- Errors from `src/lib.rs` (`OrbSoundSystemError`); the rodio error
payloads of the init-time variants are irrelevant here. -/
inductive OrbSoundSystemError where
  | DeviceErr
  | StreamErr
  | PlayErr
  | SoundFileErr (detail : String)
  | SystemIsDown
deriving DecidableEq

/-- Result of a successful `Sound::play`: the producer half retained by the
engine plus the format the consumer half reports to the sink. -/
structure PlayedSound where
  sound : SoundProducerState
  channels : Nat
  sample_rate : Nat
deriving DecidableEq

/-- `Sound::play` (`src/system/sound.rs:32-58`): create a ring buffer of
`BUFFER_CAPACITY` slots, open and decode the file (failure yields
`SoundFileErr`), capture channels and sample rate from the decoder, fill
the buffer once, hand the consumer to the sink and return the producer.
The filesystem-plus-decoder is the `fs` argument. -/
def soundPlay (fs : String → Option WavFile) (path : String) :
    Except OrbSoundSystemError PlayedSound :=
  let rb : RingBufferState := ⟨BUFFER_CAPACITY, [], true⟩
  match fs path with
  | none => .error (.SoundFileErr path)
  | some w =>
    let sound : SoundProducerState := ⟨w.samples, rb⟩
    let (sound', _) := sound.fill_buffer
    .ok ⟨sound', w.channels, w.sample_rate⟩

/-- Capacity of the bridge created by `soundPlay`, when it succeeds. -/
def capacityOfPlay (fs : String → Option WavFile) (path : String) : Option Nat :=
  match soundPlay fs path with
  | .ok p => some p.sound.buffer.capacity
  | .error _ => none

/-- The relation driving Rust's stable `slice::sort` over
`PlaySoundCommand.cmp`: element `a` may stay before element `b` exactly
when `b` is not strictly less than `a`. A stable sort with this take-first
relation is the stable sort the source performs. -/
def sortLe (a b : PlaySoundCommand) : Prop :=
  ¬ PlaySoundCommand.cmp b a = Ordering.lt

instance instDecSortLe : DecidableRel sortLe := fun a b =>
  inferInstanceAs (Decidable ¬ PlaySoundCommand.cmp b a = Ordering.lt)

/-- The §3 ordering as a non-strict relation: `a` may precede `b`. -/
def specLe (a b : PlaySoundCommand) : Prop :=
  ¬ specCmp a b = Ordering.gt

/-- `self.queue.make_contiguous().sort()` (`src/system/mod.rs:134`): a
stable sort of the pending queue by `PlaySoundCommand.cmp`. -/
def sortQueue (q : List PlaySoundCommand) : List PlaySoundCommand :=
  List.insertionSort sortLe q

/-- Eligibility check of `next_sound`: a popped request is returned when it
has no deadline, or when `Instant::now() <= deadline`. -/
def eligibleNow (now : Nat) (c : PlaySoundCommand) : Bool :=
  match c.play_deadline with
  | some deadline => decide (now ≤ deadline)
  | none => true

/-- The pop loop of `next_sound` (`src/system/mod.rs:135-145`): repeatedly
pop the front of the sorted queue, silently dropping requests whose
deadline has passed; stop at the first eligible request. Returns the
selected request (if any) and the queue left behind. -/
def nextSoundLoop (now : Nat) : List PlaySoundCommand → Option PlaySoundCommand × List PlaySoundCommand
  | [] => (none, [])
  | next :: rest =>
    match next.play_deadline with
    | some deadline =>
      if now ≤ deadline then (some next, rest) else nextSoundLoop now rest
    | none => (some next, rest)

/-- `OrbSoundSystem::next_sound` (`src/system/mod.rs:133-146`): sort the
pending queue in place, then pop until an unexpired request is found. -/
def nextSound (now : Nat) (q : List PlaySoundCommand) :
    Option PlaySoundCommand × List PlaySoundCommand :=
  nextSoundLoop now (sortQueue q)

/-- Outputs of repeatedly calling `next_sound` on the remaining queue, with
fuel bounding the number of calls. -/
def takeAllFuel (now : Nat) : Nat → List PlaySoundCommand → List PlaySoundCommand
  | 0, _ => []
  | n + 1, q =>
    match nextSound now q with
    | (some c, q') => c :: takeAllFuel now n q'
    | (none, _) => []

/-- Requests yielded by repeatedly calling `next_sound` until it returns
none; `q.length` calls always suffice. -/
def takeAll (now : Nat) (q : List PlaySoundCommand) : List PlaySoundCommand :=
  takeAllFuel now q.length q

/-- Sink state (`rodio::Sink` as the engine observes it): volume and the
paused flag. `f32` volume is modelled as `ℚ`. -/
structure SinkState where
  volume : ℚ
  paused : Bool
deriving DecidableEq

/-- Engine state from `src/system/mod.rs` (`OrbSoundSystem`): the pending
queue, the producer half of the current bridge, and the sink. The command
receiver is passed to the operations as an explicit argument. -/
structure OrbSoundSystem where
  queue : List PlaySoundCommand
  current_sound : Option SoundProducerState
  sink : SinkState
deriving DecidableEq

/-- Commands from `src/handle.rs` (`SoundCommand`). -/
inductive SoundCommand where
  | PlaySound (command : PlaySoundCommand)
  | SetVolume (value : ℚ)
  | AdjustVolume (delta : ℚ)
  | Pause
  | Resume
  | Shutdown
deriving DecidableEq

/-- Whether a command is `Shutdown`. -/
def SoundCommand.isShutdown : SoundCommand → Bool
  | .Shutdown => true
  | _ => false

/-- Effect of one non-`Shutdown` command on the engine state, as dispatched
by `process_incoming_commands` (`src/system/mod.rs:101-119`): `PlaySound`
is pushed onto the pending queue, the transport commands act on the sink.
`Shutdown` performs no state change (the drain returns instead). -/
def applyCommand (st : OrbSoundSystem) : SoundCommand → OrbSoundSystem
  | .PlaySound command => { st with queue := st.queue ++ [command] }
  | .SetVolume value => { st with sink := { st.sink with volume := value } }
  | .AdjustVolume delta => { st with sink := { st.sink with volume := st.sink.volume + delta } }
  | .Pause => { st with sink := { st.sink with paused := true } }
  | .Resume => { st with sink := { st.sink with paused := false } }
  | .Shutdown => st

/-- `OrbSoundSystem::process_incoming_commands` (`src/system/mod.rs:98-129`).
The channel is modelled by the list of commands currently pending plus a
flag telling whether every sender has been dropped: `try_recv` on the
drained list yields `Disconnected` (return true) or `Empty` (return false).
`Shutdown` returns true immediately, leaving later commands undrained. -/
def processIncomingCommands :
    List SoundCommand → Bool → OrbSoundSystem → OrbSoundSystem × Bool
  | [], disconnected, st => (st, disconnected)
  | c :: rest, disconnected, st =>
    match c with
    | .Shutdown => (st, true)
    | _ => processIncomingCommands rest disconnected (applyCommand st c)

/-- Outcome of one iteration of `run_event_loop`: continue with a new
state, break out of the loop, or panic (the thread dies). -/
inductive StepOutcome where
  | next (st : OrbSoundSystem)
  | halt
  | panicked (msg : String)
deriving DecidableEq

/-- One iteration of `OrbSoundSystem::run_event_loop`
(`src/system/mod.rs:71-94`): drain the command channel (break on
shutdown), top up the current sound and drop it when finished, and, when
idle, select the next request and start it with `Sound::play`; the source
unwraps that result with `.expect("Failed to play sound")`, so a file
error panics the event-loop thread. -/
def eventLoopIter (fs : String → Option WavFile) (now : Nat)
    (cmds : List SoundCommand) (disconnected : Bool) (st : OrbSoundSystem) :
    StepOutcome :=
  let (st1, shutdown) := processIncomingCommands cmds disconnected st
  if shutdown then .halt
  else
    let st2 :=
      match st1.current_sound with
      | some current =>
        let (current', finished) := current.fill_buffer
        if finished then { st1 with current_sound := none }
        else { st1 with current_sound := some current' }
      | none => st1
    match st2.current_sound with
    | some _ => .next st2
    | none =>
      match nextSound now st2.queue with
      | (some cmd, q') =>
        match soundPlay fs cmd.path with
        | .ok played => .next { st2 with queue := q', current_sound := some played.sound }
        | .error _ => .panicked "Failed to play sound"
      | (none, q') => .next { st2 with queue := q' }

/-- A filesystem on which every open or decode fails. -/
def fsAllFail : String → Option WavFile := fun _ => none

/-- A filesystem holding a single mono 22.05 kHz file named `m.wav`. -/
def fsMono22k : String → Option WavFile := fun p =>
  if p = "m.wav" then some ⟨1, 22050, [3, 4, 5]⟩ else none

/-- Priority rank of a request, first component of its sort key. -/
def keyP (c : PlaySoundCommand) : Nat := c.priority.rank

/-- Deadline-presence component of the sort key (`0` = has a deadline). -/
def keyD1 (c : PlaySoundCommand) : Nat :=
  match c.play_deadline with
  | some _ => 0
  | none => 1

/-- Deadline-value component of the sort key. -/
def keyD2 (c : PlaySoundCommand) : Nat :=
  match c.play_deadline with
  | some d => d
  | none => 0

/-- Lexicographic order on the sort key; a linear-arithmetic form of the
arbitration order used below to discharge totality and transitivity. -/
def keyLe (a b : PlaySoundCommand) : Prop :=
  keyP a < keyP b ∨
    (keyP a = keyP b ∧
      (keyD1 a < keyD1 b ∨ (keyD1 a = keyD1 b ∧ keyD2 a ≤ keyD2 b)))

theorem sortLe_iff_keyLe (a b : PlaySoundCommand) : sortLe a b ↔ keyLe a b := by
  rcases a with ⟨ap, apr, ad⟩
  rcases b with ⟨bp, bpr, bd⟩
  cases apr <;> cases bpr <;> cases ad <;> cases bd <;>
    simp [sortLe, PlaySoundCommand.cmp, SoundPriority.cmp, optDeadlineCmp, Ordering.then,
      keyLe, keyP, keyD1, keyD2, SoundPriority.rank, Nat.compare_eq_lt, Nat.compare_eq_gt]

theorem specLe_iff_keyLe (a b : PlaySoundCommand) : specLe a b ↔ keyLe a b := by
  rcases a with ⟨ap, apr, ad⟩
  rcases b with ⟨bp, bpr, bd⟩
  cases apr <;> cases bpr <;> cases ad <;> cases bd <;>
    simp [specLe, specCmp, keyLe, keyP, keyD1, keyD2, SoundPriority.rank,
      Nat.compare_eq_lt, Nat.compare_eq_gt, Nat.compare_eq_eq]

instance : IsTotal PlaySoundCommand sortLe :=
  ⟨fun a b => by
    rw [sortLe_iff_keyLe, sortLe_iff_keyLe]
    unfold keyLe
    omega⟩

instance : IsTrans PlaySoundCommand sortLe :=
  ⟨fun a b c hab hbc => by
    rw [sortLe_iff_keyLe] at hab hbc ⊢
    unfold keyLe at hab hbc ⊢
    omega⟩

theorem fillLoop_eq (n : Nat) (r : List Int) (b : RingBufferState) :
    fillLoop n r b =
      (r.drop n, ⟨b.capacity, b.queue ++ r.take n, b.producerAlive⟩,
        decide (r.length < n)) := by
  induction n generalizing r b with
  | zero => simp [fillLoop]
  | succ n ih =>
    cases r with
    | nil => simp [fillLoop]
    | cons x rest =>
      simp [fillLoop, RingBufferState.push, ih, Nat.succ_lt_succ_iff]

theorem fill_buffer_eq (s : SoundProducerState) :
    s.fill_buffer =
      (⟨s.reader.drop s.buffer.slots,
        ⟨s.buffer.capacity, s.buffer.queue ++ s.reader.take s.buffer.slots,
          s.buffer.producerAlive⟩⟩,
        decide (s.reader.length < s.buffer.slots)) := by
  simp [SoundProducerState.fill_buffer, fillLoop_eq]

/-- C2 counterexample: on a priority tie where neither request has a
deadline, the source comparison returns `gt`, not `Equal` as the claim
states. -/
theorem cmp_no_deadline_tie_not_eq :
    PlaySoundCommand.cmp defaultNone defaultNone = Ordering.gt ∧
      ¬ PlaySoundCommand.cmp defaultNone defaultNone = Ordering.eq := by
  decide

/-- C2 (amended): the comparison orders first by priority (Urgent before
High before Default); on priority ties a request with a deadline precedes
one without; when both have deadlines the smaller deadline precedes; and
when neither has a deadline the result is `gt` (not `Equal`). -/
theorem cmp_matches_amended_ordering (a b : PlaySoundCommand) :
    PlaySoundCommand.cmp a b = amendedCmp a b := by
  rcases a with ⟨ap, apr, ad⟩
  rcases b with ⟨bp, bpr, bd⟩
  cases apr <;> cases bpr <;> cases ad <;> cases bd <;>
    simp [PlaySoundCommand.cmp, amendedCmp, SoundPriority.cmp, SoundPriority.rank,
      optDeadlineCmp, Ordering.then] <;> rfl

/-- C3 counterexample: for a successfully opened mono 22.05 kHz file the
bridge capacity is the constant 4410, not
`ceil(sample_rate / 20) * channels = 1103` computed from the header. -/
theorem bridge_capacity_ignores_header :
    capacityOfPlay fsMono22k "m.wav" = some 4410 ∧
      claimedCapacity 22050 1 = 1103 ∧
      ¬ capacityOfPlay fsMono22k "m.wav" = some (claimedCapacity 22050 1) := by
  decide

/-- C3 (amended): for every successfully opened WAV file the ring buffer of
the bridge has the fixed capacity `BUFFER_CAPACITY = 44100 / 20 * 2 = 4410`
samples, independent of the sample rate and channel count in the file's
header. -/
theorem bridge_capacity_constant (fs : String → Option WavFile) (path : String)
    (w : WavFile) (h : fs path = some w) :
    capacityOfPlay fs path = some BUFFER_CAPACITY := by
  unfold capacityOfPlay soundPlay
  rw [h]
  simp [fill_buffer_eq]

theorem bridge_capacity_constant_witness :
    capacityOfPlay fsMono22k "m.wav" = some BUFFER_CAPACITY :=
  bridge_capacity_constant fsMono22k "m.wav" ⟨1, 22050, [3, 4, 5]⟩ (by decide)

/-- Pending request naming a file that cannot be opened. -/
def badRequest : PlaySoundCommand := ⟨"missing.wav", SoundPriority.Default, none⟩

/-- C1: when the event loop starts the next selected request and the file
open or decode fails, the loop does not log and skip: the source unwraps
the `Sound::play` result with `.expect("Failed to play sound")`, so the
iteration panics and the event-loop thread dies. Evaluated here at a
concrete failing input (an idle engine, one pending request, a filesystem
on which open fails). -/
theorem file_error_panics_event_loop :
    eventLoopIter fsAllFail 0 [] false ⟨[badRequest], none, ⟨1, false⟩⟩ =
      StepOutcome.panicked "Failed to play sound" := by
  decide

theorem eligibleNow_eq_false_iff (now : Nat) (c : PlaySoundCommand) :
    eligibleNow now c = false ↔ ∃ d, c.play_deadline = some d ∧ d < now := by
  cases hd : c.play_deadline <;> simp [eligibleNow, hd]

theorem nextSoundLoop_eq_dropWhile (now : Nat) (l : List PlaySoundCommand) :
    nextSoundLoop now l =
      ((l.dropWhile fun x => ! eligibleNow now x).head?,
        (l.dropWhile fun x => ! eligibleNow now x).tail) := by
  induction l with
  | nil => simp [nextSoundLoop]
  | cons c rest ih =>
    cases hd : c.play_deadline with
    | none => simp [nextSoundLoop, hd, List.dropWhile_cons, eligibleNow]
    | some d =>
      by_cases hnow : now ≤ d
      · simp [nextSoundLoop, hd, hnow, List.dropWhile_cons, eligibleNow]
      · simp [nextSoundLoop, hd, hnow, List.dropWhile_cons, eligibleNow, ih]

theorem nextSoundLoop_some_eligible (now : Nat) :
    ∀ (l : List PlaySoundCommand) (c : PlaySoundCommand) (q' : List PlaySoundCommand),
      nextSoundLoop now l = (some c, q') → eligibleNow now c = true := by
  intro l
  induction l with
  | nil => intro c q' h; simp [nextSoundLoop] at h
  | cons x rest ih =>
    intro c q' h
    cases hd : x.play_deadline with
    | none =>
      simp [nextSoundLoop, hd] at h
      simp [eligibleNow, ← h.1, hd]
    | some d =>
      by_cases hnow : now ≤ d
      · simp [nextSoundLoop, hd, hnow] at h
        simp [eligibleNow, ← h.1, hd, hnow]
      · simp [nextSoundLoop, hd, hnow] at h
        exact ih c q' h

theorem nextSoundLoop_none_expired (now : Nat) :
    ∀ l : List PlaySoundCommand, (nextSoundLoop now l).1 = none →
      ∀ c ∈ l, eligibleNow now c = false := by
  intro l
  induction l with
  | nil => intro _ c hc; simp at hc
  | cons x rest ih =>
    intro h c hc
    cases hd : x.play_deadline with
    | none => simp [nextSoundLoop, hd] at h
    | some d =>
      by_cases hnow : now ≤ d
      · simp [nextSoundLoop, hd, hnow] at h
      · rcases List.mem_cons.mp hc with rfl | hmem
        · simp [eligibleNow, hd, hnow]
        · simp only [nextSoundLoop, hd, if_neg hnow] at h
          exact ih h c hmem

theorem sortQueue_perm (q : List PlaySoundCommand) : (sortQueue q).Perm q :=
  List.perm_insertionSort sortLe q

theorem sortQueue_sorted (q : List PlaySoundCommand) : List.Sorted sortLe (sortQueue q) :=
  List.sorted_insertionSort sortLe q

theorem mem_sortQueue {q : List PlaySoundCommand} {c : PlaySoundCommand} :
    c ∈ sortQueue q ↔ c ∈ q :=
  (sortQueue_perm q).mem_iff

theorem nextSoundLoop_all_eligible (now : Nat) (l : List PlaySoundCommand)
    (h : ∀ c ∈ l, eligibleNow now c = true) :
    nextSoundLoop now l = (l.head?, l.tail) := by
  cases l with
  | nil => rfl
  | cons c rest =>
    have hc := h c (List.mem_cons_self c rest)
    cases hd : c.play_deadline with
    | none => simp [nextSoundLoop, hd]
    | some d =>
      have hnow : now ≤ d := by simpa [eligibleNow, hd] using hc
      simp [nextSoundLoop, hd, hnow]

theorem nextSound_no_expiry (now : Nat) (q : List PlaySoundCommand)
    (h : ∀ c ∈ q, eligibleNow now c = true) :
    nextSound now q = ((sortQueue q).head?, (sortQueue q).tail) :=
  nextSoundLoop_all_eligible now (sortQueue q) fun c hc => h c (mem_sortQueue.mp hc)

theorem takeAllFuel_no_expiry (now : Nat) :
    ∀ (n : Nat) (q : List PlaySoundCommand), q.length = n →
      (∀ c ∈ q, eligibleNow now c = true) →
      takeAllFuel now n q = sortQueue q := by
  intro n
  induction n with
  | zero =>
    intro q hlen _
    rw [List.length_eq_zero.mp hlen]
    rfl
  | succ n ih =>
    intro q hlen h
    have hplen : (sortQueue q).length = q.length := (sortQueue_perm q).length_eq
    cases hs : sortQueue q with
    | nil =>
      rw [hs] at hplen
      simp [hlen] at hplen
    | cons c rest =>
      have hns : nextSound now q = (some c, rest) := by
        rw [nextSound_no_expiry now q h, hs]
        rfl
      have hrest_mem : ∀ x ∈ rest, x ∈ q := fun x hx =>
        mem_sortQueue.mp (hs ▸ List.mem_cons_of_mem c hx)
      have hrest_len : rest.length = n := by
        rw [hs] at hplen
        simp at hplen
        omega
      have hrest_sorted : List.Sorted sortLe rest := by
        have := sortQueue_sorted q
        rw [hs] at this
        exact this.of_cons
      have hrest_eq : sortQueue rest = rest := hrest_sorted.insertionSort_eq
      simp only [takeAllFuel, hns]
      rw [ih rest hrest_len fun x hx => h x (hrest_mem x hx), hrest_eq]

/-- C4: with no expiry, repeated `next_sound` calls yield the pending batch
as a permutation sorted by the §3 relation; in particular, on the six-
request batch of scenario S2 the calls return Urgent/none, High/3s,
High/5s, High/none, Default/2s, Default/none in that order. -/
theorem take_next_yields_spec_order :
    (∀ (q : List PlaySoundCommand) (now : Nat),
        (∀ c ∈ q, eligibleNow now c = true) →
        (takeAll now q).Perm q ∧ List.Sorted specLe (takeAll now q)) ∧
      takeAll 0 [defaultNone, default2s, highNone, high5s, high3s, urgentNone] =
        [urgentNone, high3s, high5s, highNone, default2s, defaultNone] := by
  constructor
  · intro q now h
    have ht : takeAll now q = sortQueue q := takeAllFuel_no_expiry now q.length q rfl h
    rw [ht]
    refine ⟨sortQueue_perm q, (sortQueue_sorted q).imp fun hab => ?_⟩
    exact (specLe_iff_keyLe _ _).2 ((sortLe_iff_keyLe _ _).1 hab)
  · decide

theorem take_next_yields_spec_order_witness :
    (takeAll 0 [defaultNone, default2s, highNone, high5s, high3s, urgentNone]).Perm
        [defaultNone, default2s, highNone, high5s, high3s, urgentNone] ∧
      List.Sorted specLe
        (takeAll 0 [defaultNone, default2s, highNone, high5s, high3s, urgentNone]) :=
  take_next_yields_spec_order.1
    [defaultNone, default2s, highNone, high5s, high3s, urgentNone] 0 (by decide)

/-- C5: `take_next(now)` never returns a request whose deadline has passed
(`deadline < now` is discarded silently; the scan continues), while a
request with `deadline ≥ now` stays eligible: whenever the call returns
none, every pending request had an expired deadline. -/
theorem take_next_never_returns_expired (now : Nat) (q : List PlaySoundCommand) :
    (∀ (c : PlaySoundCommand) (q' : List PlaySoundCommand) (d : Nat),
        nextSound now q = (some c, q') → c.play_deadline = some d → now ≤ d) ∧
      ((nextSound now q).1 = none →
        ∀ c ∈ q, ∃ d, c.play_deadline = some d ∧ d < now) := by
  constructor
  · intro c q' d h hd
    have he := nextSoundLoop_some_eligible now (sortQueue q) c q' h
    simpa [eligibleNow, hd] using he
  · intro h c hc
    have he := nextSoundLoop_none_expired now (sortQueue q) h c (mem_sortQueue.mpr hc)
    exact (eligibleNow_eq_false_iff now c).mp he

theorem take_next_never_returns_expired_witness : (10 : Nat) ≤ 20 :=
  (take_next_never_returns_expired 10
      [⟨"", SoundPriority.High, some 3⟩, ⟨"", SoundPriority.Default, some 20⟩]).1
    ⟨"", SoundPriority.Default, some 20⟩ [] 20 (by decide) rfl

/-- C10: one `take_next(now)` call removes exactly the expired requests
that precede the first eligible request in that call's sorted order,
together with the returned request itself: the result is the head of the
sorted queue with its expired front removed, and the queue left behind is
exactly the tail after that head — every later request, expired or not,
remains. Each dropped front request indeed has a passed deadline. -/
theorem take_next_frame_effect (now : Nat) (q : List PlaySoundCommand) :
    nextSound now q =
      (((sortQueue q).dropWhile fun x => ! eligibleNow now x).head?,
        ((sortQueue q).dropWhile fun x => ! eligibleNow now x).tail) ∧
      ∀ x ∈ (sortQueue q).takeWhile fun x => ! eligibleNow now x,
        ∃ d, x.play_deadline = some d ∧ d < now := by
  constructor
  · exact nextSoundLoop_eq_dropWhile now (sortQueue q)
  · intro x hx
    have hpred := List.mem_takeWhile_imp hx
    exact (eligibleNow_eq_false_iff now x).mp (by simpa using hpred)

/-- C6: one `fill_buffer` call writes at most as many samples as there were
free slots at the start of the call, and reports end-of-stream exactly when
the reader ran out before that many samples were written. -/
theorem fill_buffer_bound_and_eos (s : SoundProducerState) :
    s.fill_buffer.1.buffer.queue.length ≤ s.buffer.queue.length + s.buffer.slots ∧
      s.fill_buffer.2 = decide (s.reader.length < s.buffer.slots) := by
  rw [fill_buffer_eq]
  refine ⟨?_, rfl⟩
  simp only [List.length_append, List.length_take]
  omega

theorem fill_buffer_bound_and_eos_witness :
    (SoundProducerState.fill_buffer ⟨[1, 2, 3], ⟨2, [], true⟩⟩).1.buffer.queue.length ≤
        ([] : List Int).length + RingBufferState.slots ⟨2, [], true⟩ ∧
      (SoundProducerState.fill_buffer ⟨[1, 2, 3], ⟨2, [], true⟩⟩).2 =
        decide (([1, 2, 3] : List Int).length < RingBufferState.slots ⟨2, [], true⟩) :=
  fill_buffer_bound_and_eos ⟨[1, 2, 3], ⟨2, [], true⟩⟩

/-- C7: `next_sample` returns the next queued sample when the queue is
non-empty; on an empty queue it returns none when the producer was dropped
and the zero sample (silence) otherwise. On a 2-slot bridge holding the
stream [1, 2]: two consumes yield 1 then 2, a third yields silence, and
after the producer is dropped the fourth yields none. -/
theorem next_sample_case_order :
    (∀ (rb : RingBufferState) (x : Int) (r : List Int),
        rb.queue = x :: r → (consumerNext rb).1 = some x) ∧
      (∀ rb : RingBufferState, rb.queue = [] → rb.producerAlive = false →
        (consumerNext rb).1 = none) ∧
      (∀ rb : RingBufferState, rb.queue = [] → rb.producerAlive = true →
        (consumerNext rb).1 = some 0) ∧
      (consumerNext ⟨2, [1, 2], true⟩ = (some 1, ⟨2, [2], true⟩) ∧
        consumerNext ⟨2, [2], true⟩ = (some 2, ⟨2, [], true⟩) ∧
        consumerNext ⟨2, [], true⟩ = (some 0, ⟨2, [], true⟩) ∧
        consumerNext (RingBufferState.dropProducer ⟨2, [], true⟩) =
          (none, RingBufferState.dropProducer ⟨2, [], true⟩)) := by
  refine ⟨?_, ?_, ?_, by decide⟩
  · intro rb x r h
    simp [consumerNext, RingBufferState.pop, h]
  · intro rb h ha
    simp [consumerNext, RingBufferState.pop, h, ha]
  · intro rb h ha
    simp [consumerNext, RingBufferState.pop, h, ha]

theorem next_sample_case_order_witness :
    (consumerNext ⟨1, [7], true⟩).1 = some 7 :=
  next_sample_case_order.1 ⟨1, [7], true⟩ 7 [] rfl

/-- C8: once the producer half has been dropped and the queue is drained,
every one of the next `n` calls to `next_sample` returns none, for every
`n`; the state never changes, so a `Some` is never returned again. -/
theorem eos_none_forever (rb : RingBufferState) (n : Nat)
    (hq : rb.queue = []) (ha : rb.producerAlive = false) :
    consumeN n rb = (List.replicate n none, rb) := by
  induction n with
  | zero => simp [consumeN]
  | succ n ih =>
    have hnext : consumerNext rb = (none, rb) := by
      simp [consumerNext, RingBufferState.pop, hq, ha]
    simp [consumeN, hnext, ih, List.replicate_succ]

theorem eos_none_forever_witness :
    consumeN 3 ⟨4, [], false⟩ = (List.replicate 3 none, ⟨4, [], false⟩) :=
  eos_none_forever ⟨4, [], false⟩ 3 rfl rfl

theorem isShutdown_eq_true_iff (c : SoundCommand) :
    c.isShutdown = true ↔ c = SoundCommand.Shutdown := by
  cases c <;> simp [SoundCommand.isShutdown]

/-- C9: the command drain applies every command drained before the exit
(play requests appended to the pending queue, volume, pause and resume
applied to the sink state) and returns true exactly when a `Shutdown` was
in the channel or every sender was dropped; a merely empty channel yields
false (continue). -/
theorem process_commands_drain (cmds : List SoundCommand) (disconnected : Bool)
    (st : OrbSoundSystem) :
    processIncomingCommands cmds disconnected st =
      (List.foldl applyCommand st (cmds.takeWhile fun c => ! c.isShutdown),
        cmds.any SoundCommand.isShutdown || disconnected) ∧
      ((cmds.any SoundCommand.isShutdown || disconnected) = true ↔
        SoundCommand.Shutdown ∈ cmds ∨ disconnected = true) := by
  constructor
  · induction cmds generalizing st with
    | nil => simp [processIncomingCommands]
    | cons c rest ih =>
      cases c <;>
        simp [processIncomingCommands, applyCommand, SoundCommand.isShutdown,
          List.takeWhile_cons, ih]
  · simp [List.any_eq_true, isShutdown_eq_true_iff, Bool.or_eq_true]

theorem process_commands_drain_witness :
    processIncomingCommands [SoundCommand.SetVolume 2, SoundCommand.Shutdown] false
        ⟨[], none, ⟨1, false⟩⟩ =
      (List.foldl applyCommand ⟨[], none, ⟨1, false⟩⟩
          ([SoundCommand.SetVolume 2, SoundCommand.Shutdown].takeWhile
            fun c => ! c.isShutdown),
        [SoundCommand.SetVolume 2, SoundCommand.Shutdown].any SoundCommand.isShutdown ||
          false) ∧
      (([SoundCommand.SetVolume 2, SoundCommand.Shutdown].any SoundCommand.isShutdown ||
            false) = true ↔
        SoundCommand.Shutdown ∈ [SoundCommand.SetVolume 2, SoundCommand.Shutdown] ∨
          false = true) :=
  process_commands_drain [SoundCommand.SetVolume 2, SoundCommand.Shutdown] false
    ⟨[], none, ⟨1, false⟩⟩

/-- A queue whose sorted order puts an eligible request first and expired
requests after it. -/
def qFrame : List PlaySoundCommand :=
  [⟨"a", SoundPriority.Default, some 3⟩, ⟨"b", SoundPriority.High, some 2⟩,
    ⟨"c", SoundPriority.Urgent, none⟩]

theorem take_next_frame_effect_witness :
    nextSound 10 qFrame =
      (((sortQueue qFrame).dropWhile fun x => ! eligibleNow 10 x).head?,
        ((sortQueue qFrame).dropWhile fun x => ! eligibleNow 10 x).tail) :=
  (take_next_frame_effect 10 qFrame).1
